import Mathlib

/-!
Shallow embedding of the entity-identity-resolution and association-builder
core of the dipper repository (sources UDP.py and WormBase.py), together
with theorems settling the specification claims about it.

All definitions are executable translations of the Python source:
regular-expression operations on literal patterns become explicit
list-of-characters scans, `dict`s become association lists that preserve
insertion order, and the per-row loops become folds over row lists.
-/

namespace Dipper

/-! ### Python string primitives

`strSearch pat s` models `re.search(pat, s)` for a literal pattern
(substring containment); `strMatch pat s` models `re.match(pat, s)` for a
literal pattern (prefix test). -/

/-- Does `pat` occur as a contiguous run inside the list? -/
def containsPat (pat : List Char) : List Char → Bool
  | [] => pat.isEmpty
  | c :: cs => pat.isPrefixOf (c :: cs) || containsPat pat cs

def strSearch (pat s : String) : Bool :=
  containsPat pat.data s.data

def strMatch (pat s : String) : Bool :=
  pat.data.isPrefixOf s.data

/-- Character-level upper-casing, the meaning of Python `str.upper` on
the ASCII identifiers this source handles. -/
def strUpper (s : String) : String :=
  String.mk (s.data.map Char.toUpper)

/-- Python `str.strip`: drop whitespace from both ends. -/
def strStrip (s : String) : String :=
  String.mk (((s.data.dropWhile Char.isWhitespace).reverse.dropWhile
    Char.isWhitespace).reverse)

/-- Fuel-indexed scanner for `re.sub` with a literal, non-empty pattern
`p :: ps`: scan left to right, replace each non-overlapping occurrence by
`rep`.  The fuel is the length of the scanned list, so the recursion is
structural and the function evaluates by `decide`. -/
def replaceSubAux (p : Char) (ps rep : List Char) : Nat → List Char → List Char
  | 0, l => l
  | _ + 1, [] => []
  | fuel + 1, c :: cs =>
    if (p :: ps).isPrefixOf (c :: cs) then
      rep ++ replaceSubAux p ps rep fuel (cs.drop ps.length)
    else
      c :: replaceSubAux p ps rep fuel cs

/-- Model of Python `re.sub(pat, rep, s)` for a literal pattern. -/
def pySub (pat rep s : String) : String :=
  match pat.data with
  | [] => s
  | p :: ps => String.mk (replaceSubAux p ps rep.data s.data.length s.data)

/-- Splitter for `re.split` on the literal pipe character: `acc` holds
the reversed characters of the piece being read. -/
def splitPipeAux (acc : List Char) : List Char → List String
  | [] => [String.mk acc.reverse]
  | c :: cs =>
    if c = '|' then String.mk acc.reverse :: splitPipeAux [] cs
    else splitPipeAux (c :: acc) cs

/-- Model of Python `re.split` on the literal pipe pattern. -/
def pySplitPipe (s : String) : List String :=
  splitPipeAux [] s.data

/-- Lexicographic comparison of character lists by code point, the order
Python `sorted` uses on strings. -/
def lexLe : List Char → List Char → Bool
  | [], _ => true
  | _ :: _, [] => false
  | a :: as, b :: bs =>
    if a < b then true else if a = b then lexLe as bs else false

/-- The string order underlying Python `sorted`. -/
def pyLe (a b : String) : Prop :=
  lexLe a.data b.data = true

instance pyLe.decRel : DecidableRel pyLe := fun a b =>
  instDecidableEqBool (lexLe a.data b.data) true

/-- Model of Python `sorted` on a list of strings: the unique ordering of
the list under the lexicographic order on code points. -/
def pySorted (l : List String) : List String :=
  List.insertionSort pyLe l

/-! ### UDP.py: `_convert_variant_file_to_dict`

One row of `udp_variants.tsv`, restricted to the columns the function
reads.  The remaining positional columns are unpacked by the source but
never used. -/

structure VRow where
  patient : String
  chromosome : String
  build : String
  position : String
  reference_allele : String
  variant_allele : String
  mutation_type : String
  gene_symbol : String
  dbSNP_ID : String
deriving Repr, DecidableEq

/-- Model of `re.sub(r'^CHR', 'chr', chromosome, flags=re.I)`: rewrite a
leading case-insensitive `CHR` to lowercase `chr`. -/
def subLeadingChr (c : String) : String :=
  if (c.data.take 3).map Char.toLower = ['c', 'h', 'r'] then
    String.mk ('c' :: 'h' :: 'r' :: c.data.drop 3)
  else c

/-- Model of `re.match(r'[XY]|[1-9]{1,2}', chromosome, flags=re.I)`: an
anchored match succeeds exactly when the first character is `X`, `Y`
(either case) or a digit `1`-`9`. -/
def chrHeadMatch (c : String) : Bool :=
  match c.data with
  | [] => false
  | ch :: _ => ch.toLower = 'x' || ch.toLower = 'y' || ('1' ≤ ch && ch ≤ '9')

/-- The chromosome value before the alternate-assembly (`chrGL`) check. -/
def formatChrPre (c : String) : String :=
  if chrHeadMatch c then "chr" ++ strUpper c else subLeadingChr c

/-- Full chromosome normalization from `_convert_variant_file_to_dict`:
prefix canonicalization followed by rejection of values whose formatted
form contains `chrGL`. -/
def formatChr (c : String) : String :=
  if strSearch "chrGL" (formatChrPre c) then "" else formatChrPre c

/-- Model of `re.sub(r'^HG', 'hg', build, flags=re.I)`. -/
def formatBuild (b : String) : String :=
  if (b.data.take 2).map Char.toLower = ['h', 'g'] then
    String.mk ('h' :: 'g' :: b.data.drop 2)
  else b

/-- Allele-base normalization: upper-case, then reject values carrying
annotation text (`LEFT FLANK`, `NM_`, `EXON`) to the empty string. -/
def cleanAllele (a : String) : String :=
  let u := strUpper a
  if strSearch "LEFT FLANK" u || strSearch "NM_" u || strSearch "EXON" u then "" else u

/-- Model of the dbSNP extraction `re.match(r'^(rs\d+).*', dbSNP_ID)`:
keep the leading `rs` marker plus its digits, or return empty. -/
def rsIdOf (d : String) : String :=
  match d.data with
  | 'r' :: 's' :: rest =>
    let ds := rest.takeWhile Char.isDigit
    if ds = [] then "" else String.mk ('r' :: 's' :: ds)
  | _ => ""

/-- The five normalized positional/allelic fields, in source order. -/
def variantInfo (r : VRow) : List String :=
  [formatChr r.chromosome, formatBuild r.build, r.position,
   cleanAllele r.reference_allele, cleanAllele r.variant_allele]

/-- The synthesized variant key for row `r` read at line `n`: the joined
five normalized fields when all are non-empty, otherwise the
line-number-qualified join of the non-empty fields. -/
def variantKey (n : Nat) (r : VRow) : String :=
  let info := variantInfo r
  if "" ∈ info then
    toString n ++ "-" ++ "-".intercalate (info.filter (fun s => s ≠ ""))
  else
    "-".intercalate info

/-- The per-variant record stored in the patient map. -/
structure VariantEntry where
  build : String
  chromosome : String
  reference_allele : String
  variant_allele : String
  vtype : String
  rs_id : Option String
  genes_of_interest : List String
deriving Repr, DecidableEq

/-- The nested patient map, as an insertion-ordered association list:
patient id to (variant key to entry). -/
abbrev PatientMap := List (String × List (String × VariantEntry))

/-- Get-or-create update of an association list: apply `f` when the key
is present, otherwise append `(k, d)`. -/
def updateAList {β : Type} (k : String) (f : β → β) (d : β) :
    List (String × β) → List (String × β)
  | [] => [(k, d)]
  | (k', v) :: rest =>
    if k' = k then (k', f v) :: rest else (k', v) :: updateAList k f d rest

/-- The fresh entry created the first time a variant key is seen. -/
def newEntry (r : VRow) : VariantEntry :=
  { build := formatBuild r.build
    chromosome := formatChr r.chromosome
    reference_allele := cleanAllele r.reference_allele
    variant_allele := cleanAllele r.variant_allele
    vtype := r.mutation_type
    rs_id := if rsIdOf r.dbSNP_ID ≠ "" then some (rsIdOf r.dbSNP_ID) else none
    genes_of_interest := [r.gene_symbol] }

/-- Processing of one variant row at line `n`: ensure the patient bucket
exists, then either append the gene symbol to the existing entry for the
row's variant key or create a fresh entry. -/
def addVariantRow (n : Nat) (r : VRow) (m : PatientMap) : PatientMap :=
  updateAList r.patient
    (fun pm =>
      updateAList (variantKey n r)
        (fun e => { e with genes_of_interest := e.genes_of_interest ++ [r.gene_symbol] })
        (newEntry r) pm)
    [(variantKey n r, newEntry r)] m

/-- `_convert_variant_file_to_dict`: fold the rows, numbering lines from 0. -/
def buildVariantMap (rows : List VRow) : PatientMap :=
  (rows.enum).foldl (fun m p => addVariantRow p.1 p.2 m) []

/-- Lookup of the entry for patient `p` and variant key `k`. -/
def lookupVar (m : PatientMap) (p k : String) : Option VariantEntry :=
  (m.lookup p).bind (fun pm => pm.lookup k)

/-- The genes-of-interest view of a map position: the stored list, or the
empty list when the entry is absent. -/
def geneView (m : PatientMap) (p k : String) : List String :=
  ((lookupVar m p k).map (fun e => e.genes_of_interest)).getD []

/-- Decimal decoding of a digit string, the left inverse of the decimal
rendering used for line numbers. -/
def decodeDigits (l : List Char) : Nat :=
  l.foldl (fun a c => 10 * a + (c.toNat - '0'.toNat)) 0

/-- The gene symbols of the numbered rows contributing to patient `p` and
variant key `k`, in row order. -/
def contribGenes (l : List (Nat × VRow)) (p k : String) : List String :=
  (l.filter (fun nr => nr.2.patient = p ∧ variantKey nr.1 nr.2 = k)).map
    (fun nr => nr.2.gene_symbol)

/-! ### UDP.py: `_parse_patient_phenotypes` -/

/-- An emitted RDF-style triple. -/
structure Triple where
  subj : String
  pred : String
  obj : String
deriving Repr, DecidableEq

/-- One row of `udp_phenotypes.tsv` and the triples it produces: the
person node, an unconditional `has_phenotype` link to the fixed disease
term `DOID:4`, and the row's own HPO term only when the presence column
is exactly `yes`. -/
def parsePhenotypeRow (patient_id hpo_curie present : String) : List Triple :=
  let patient_curie := ":" ++ patient_id
  [⟨patient_curie, "rdf:type", "foaf:Person"⟩,
   ⟨patient_curie, "has_phenotype", "DOID:4"⟩] ++
  (if present = "yes" then [⟨patient_curie, "has_phenotype", hpo_curie⟩] else [])

/-! ### WormBase.py: association processing -/

/-- The columns of one data row of `phenotype_association.wb` or
`disease_association.wb` that the processing reads.  The remaining
positional columns are unpacked by the source but never used. -/
structure ARow where
  gene_num : String
  is_not : String
  phenotype_id : String
  ref : String
  eco_symbol : String
  with_or_from : String
deriving Repr, DecidableEq

/-- An association record as assembled by `G2PAssoc` plus its
`add_evidence` / `add_source` calls. -/
structure WBAssoc where
  subject : String
  obj : String
  evidence : Option String
  sources : List String
deriving Repr, DecidableEq

/-- The reference/with-from column disambiguation of
`process_allele_phenotype`: both pattern tests inspect the original
column values; each reassignment fires independently of the other. -/
def disambiguate (ref wf : String) : String × String :=
  let wf' := if strSearch "WBVar" ref || strSearch "WBRNAi" ref then ref else wf
  let ref' := if strMatch "WBPerson" wf then wf else ref
  (ref', wf')

/-- The genomic-variation-complement key: sort the allele identifiers,
join with a dash behind an underscore marker, strip `WB:` occurrences,
and prepend the `:` used for skolemized blank nodes (the source sets
`nobnodes = True` in `parse`). -/
def gvcKey (alleles : List String) : String :=
  ":" ++ pySub "WB:" "" ("_" ++ "-".intercalate (pySorted alleles))

/-- `_make_reagent_targeted_gene_id`, with the `nobnodes = True` prefix. -/
def rtgKey (gene_num reagent_num : String) : String :=
  ":" ++ ("_" ++ "-".intercalate [gene_num, reagent_num])

/-- Reference canonicalization `re.sub('(WB:|WB_REF:)', 'WormBase:', ref)`.
Neither literal alternative overlaps the other or the replacement, so the
alternation is equivalent to the sequential substitutions. -/
def fixRef (r : String) : String :=
  pySub "WB:" "WormBase:" (pySub "WB_REF:" "WormBase:" r)

/-- The evidence-code lookup of `process_allele_phenotype`. -/
def ecoOf (r : ARow) : Option String :=
  if r.eco_symbol = "IMP" then some "ECO:0000015" else none

/-- Does the row trigger the unrecognized-evidence warning? -/
def ecoWarned (r : ARow) : Bool :=
  r.eco_symbol ≠ "IMP" && strStrip r.eco_symbol ≠ ""

/-- The source list attached to the association: the disambiguated
reference, canonicalized, when non-empty. -/
def sourcesOf (ref' : String) : List String :=
  if ref' ≠ "" then [fixRef ref'] else []

/-- One data row of `process_allele_phenotype` (non-test mode): the
emitted associations together with the warnings logged for the row. -/
def processAllelePhenotypeRow (r : ARow) : List WBAssoc × List String :=
  if r.is_not = "NOT" then ([], [])
  else
    let warns := if ecoWarned r then ["Encountered an ECO code we do not have: " ++ r.eco_symbol] else []
    let ref' := (disambiguate r.ref r.with_or_from).1
    let wf' := (disambiguate r.ref r.with_or_from).2
    let allele_list := pySplitPipe wf'
    if allele_list.length = 0 then ([], warns ++ ["Missing alleles from phenotype assoc"])
    else if allele_list.length = 1 then
      let a0 := pySub "WB:" "WormBase:" (allele_list.headD "")
      let allele_id :=
        if strSearch "WBRNAi" a0 then rtgKey r.gene_num (pySub "WormBase:" "" a0) else a0
      ([{ subject := allele_id, obj := r.phenotype_id, evidence := ecoOf r,
          sources := sourcesOf ref' }], warns)
    else
      ([{ subject := gvcKey allele_list, obj := r.phenotype_id, evidence := ecoOf r,
          sources := sourcesOf ref' }], warns)

/-- The whole allele-phenotype file: associations and warnings of every
data row, in order. -/
def processAllelePhenotypeFile (rows : List ARow) : List WBAssoc × List String :=
  rows.foldr
    (fun r acc =>
      ((processAllelePhenotypeRow r).1 ++ acc.1, (processAllelePhenotypeRow r).2 ++ acc.2))
    ([], [])

/-- `process_disease_association` over a row list.  The Python local
`eco_id` is assigned only on rows whose evidence symbol is `IEA` and
persists across loop iterations; before its first assignment it is
unbound, and reading it raises `NameError`.  The state `none` models the
unbound name, `some e` models a bound value `e`. -/
def processDiseaseAux (st : Option (Option String)) :
    List ARow → Except String (List WBAssoc)
  | [] => .ok []
  | r :: rest =>
    if r.is_not = "NOT" then processDiseaseAux st rest
    else
      let refS := pySub "WB_REF:" "WormBase:" r.ref
      let st' : Option (Option String) :=
        if r.eco_symbol = "IEA" then some (some "ECO:0000501") else st
      match st' with
      | none => .error ("NameError: name eco_id is not defined at gene " ++ r.gene_num)
      | some e =>
        (processDiseaseAux (some e) rest).map
          (fun tl =>
            { subject := "WormBase:" ++ r.gene_num, obj := r.phenotype_id,
              evidence := e,
              sources := if refS ≠ "" then [refS] else [] } :: tl)

/-- The whole disease-association file, starting with `eco_id` unbound. -/
def processDiseaseFile (rows : List ARow) : Except String (List WBAssoc) :=
  processDiseaseAux none rows

/-! ### The pipeline view used for the determinism claim -/

/-- Modelled from the spec: `Source.make_id` (class `Source` is not under
`src/`) derives the per-subject intrinsic-genotype blank-node identifier
as a deterministic digest of the seed string
`{patient}-intrinsic-genotype` built by `_parse_patient_variants`; the
digest step is modelled by the seed string itself, which determines it. -/
def genotypeKey (patient : String) : String :=
  patient ++ "-intrinsic-genotype"

/-- All synthesized variant keys of a UDP run, per patient bucket. -/
def variantKeysOf (m : PatientMap) : List String :=
  m.flatMap (fun pe => pe.2.map (fun ke => ke.1))

/-- One full run of the identity-synthesis pipeline over in-memory input:
the UDP variant map with its synthesized variant keys, the per-patient
intrinsic-genotype keys, and the WormBase association outputs with their
synthesized GVC/reagent-targeted-gene subjects. -/
def runPipeline (vrows : List VRow) (arows : List ARow) (drows : List ARow) :
    (List String × List String × List WBAssoc × Except String (List WBAssoc) × Nat) :=
  let vmap := buildVariantMap vrows
  let assocs := (processAllelePhenotypeFile arows).1
  let dis := processDiseaseFile drows
  (variantKeysOf vmap,
   (vmap.map (fun pe => pe.1)).map genotypeKey,
   assocs,
   dis,
   assocs.length)

/-! ### Helper lemmas -/

/-- The lexicographic comparison is total. -/
theorem lexLe_total (l1 : List Char) :
    ∀ l2 : List Char, lexLe l1 l2 = true ∨ lexLe l2 l1 = true := by
  induction l1 with
  | nil => intro l2; left; rfl
  | cons a as ih =>
    intro l2
    cases l2 with
    | nil => right; rfl
    | cons b bs =>
      rcases lt_trichotomy a b with h | h | h
      · left; simp [lexLe, h]
      · subst h
        rcases ih bs with h2 | h2
        · left; simp [lexLe, lt_irrefl, h2]
        · right; simp [lexLe, lt_irrefl, h2]
      · right; simp [lexLe, h]

/-- The lexicographic comparison is transitive. -/
theorem lexLe_trans (l1 : List Char) :
    ∀ l2 l3 : List Char, lexLe l1 l2 = true → lexLe l2 l3 = true →
      lexLe l1 l3 = true := by
  induction l1 with
  | nil => intro l2 l3 _ _; rfl
  | cons a as ih =>
    intro l2 l3 h12 h23
    cases l2 with
    | nil => simp [lexLe] at h12
    | cons b bs =>
      cases l3 with
      | nil => simp [lexLe] at h23
      | cons c cs =>
        rcases lt_trichotomy a b with hab | hab | hab
        · rcases lt_trichotomy b c with hbc | hbc | hbc
          · simp [lexLe, lt_trans hab hbc]
          · subst hbc; simp [lexLe, hab]
          · simp [lexLe, not_lt_of_gt hbc, ne_of_gt hbc] at h23
        · subst hab
          simp only [lexLe, lt_irrefl, if_false, if_neg, reduceIte] at h12
          rcases lt_trichotomy a c with hac | hac | hac
          · simp [lexLe, hac]
          · subst hac
            simp only [lexLe, lt_irrefl, reduceIte] at h23 ⊢
            exact ih bs cs h12 h23
          · simp [lexLe, not_lt_of_gt hac, ne_of_gt hac] at h23
        · simp [lexLe, not_lt_of_gt hab, ne_of_gt hab] at h12

/-- The lexicographic comparison is antisymmetric. -/
theorem lexLe_antisymm (l1 : List Char) :
    ∀ l2 : List Char, lexLe l1 l2 = true → lexLe l2 l1 = true → l1 = l2 := by
  induction l1 with
  | nil =>
    intro l2 h12 h21
    cases l2 with
    | nil => rfl
    | cons b bs => simp [lexLe] at h21
  | cons a as ih =>
    intro l2 h12 h21
    cases l2 with
    | nil => simp [lexLe] at h12
    | cons b bs =>
      rcases lt_trichotomy a b with hab | hab | hab
      · simp [lexLe, not_lt_of_gt hab, ne_of_gt hab] at h21
      · subst hab
        simp only [lexLe, lt_irrefl, reduceIte] at h12 h21
        rw [ih bs h12 h21]
      · simp [lexLe, not_lt_of_gt hab, ne_of_gt hab] at h12

/-- Sorting is invariant under permutation of the input. -/
theorem pySorted_perm_eq {l1 l2 : List String} (h : l1.Perm l2) :
    pySorted l1 = pySorted l2 := by
  haveI : IsTotal String pyLe := ⟨fun a b => lexLe_total a.data b.data⟩
  haveI : IsTrans String pyLe := ⟨fun a b c => lexLe_trans a.data b.data c.data⟩
  haveI : IsAntisymm String pyLe :=
    ⟨fun a b h1 h2 => String.toList_inj.mp (lexLe_antisymm _ _ h1 h2)⟩
  exact List.eq_of_perm_of_sorted
    ((List.perm_insertionSort _ l1).trans (h.trans (List.perm_insertionSort _ l2).symm))
    (List.sorted_insertionSort _ l1) (List.sorted_insertionSort _ l2)

/-- Sorting an already produced sort result changes nothing. -/
theorem pySorted_idem (l : List String) : pySorted (pySorted l) = pySorted l := by
  haveI : IsTotal String pyLe := ⟨fun a b => lexLe_total a.data b.data⟩
  haveI : IsTrans String pyLe := ⟨fun a b c => lexLe_trans a.data b.data c.data⟩
  exact List.Sorted.insertionSort_eq (List.sorted_insertionSort _ l)

/-- The GVC key of a pre-sorted list equals the GVC key of the list. -/
theorem gvcKey_pySorted (l : List String) : gvcKey (pySorted l) = gvcKey l := by
  unfold gvcKey
  rw [pySorted_idem]

/-- The accumulator of `Nat.toDigitsCore` is emitted unchanged behind the
digits. -/
theorem toDigitsCore_acc (b fuel : Nat) :
    ∀ (n : Nat) (ds : List Char),
      Nat.toDigitsCore b fuel n ds = Nat.toDigitsCore b fuel n [] ++ ds := by
  induction fuel with
  | zero => intro n ds; simp [Nat.toDigitsCore]
  | succ f ih =>
    intro n ds
    simp only [Nat.toDigitsCore]
    by_cases h : n / b = 0
    · simp [h]
    · rw [if_neg h, if_neg h, ih (n / b) [Nat.digitChar (n % b)],
        ih (n / b) (Nat.digitChar (n % b) :: ds)]
      simp

/-- The characters emitted for values below ten are decimal digits. -/
theorem digitChar_isDigit : ∀ m, m < 10 → (Nat.digitChar m).isDigit = true := by
  decide

/-- Decoding a digit character below ten recovers its value. -/
theorem digitChar_val : ∀ m, m < 10 → (Nat.digitChar m).toNat - '0'.toNat = m := by
  decide

/-- Every character produced by the base-ten digit spill is a digit. -/
theorem toDigitsCore_digits (fuel : Nat) :
    ∀ (n : Nat) (ds : List Char), (∀ c ∈ ds, c.isDigit = true) →
      ∀ c ∈ Nat.toDigitsCore 10 fuel n ds, c.isDigit = true := by
  induction fuel with
  | zero =>
    intro n ds h
    simpa [Nat.toDigitsCore] using h
  | succ f ih =>
    intro n ds h
    simp only [Nat.toDigitsCore]
    by_cases h0 : n / 10 = 0
    · rw [if_pos h0]
      intro c hc
      rcases List.mem_cons.mp hc with rfl | hc
      · exact digitChar_isDigit _ (Nat.mod_lt _ (by omega))
      · exact h c hc
    · rw [if_neg h0]
      apply ih
      intro c hc
      rcases List.mem_cons.mp hc with rfl | hc
      · exact digitChar_isDigit _ (Nat.mod_lt _ (by omega))
      · exact h c hc

/-- Decimal decoding inverts the base-ten digit spill. -/
theorem decode_toDigitsCore (fuel : Nat) :
    ∀ n : Nat, n < fuel → decodeDigits (Nat.toDigitsCore 10 fuel n []) = n := by
  induction fuel with
  | zero => intro n h; omega
  | succ f ih =>
    intro n h
    simp only [Nat.toDigitsCore]
    by_cases h0 : n / 10 = 0
    · rw [if_pos h0]
      have hn : n < 10 := by
        by_contra hge
        have : 1 ≤ n / 10 := Nat.one_le_div_iff (by omega) |>.mpr (by omega)
        omega
      unfold decodeDigits
      simp only [List.foldl]
      rw [Nat.mod_eq_of_lt hn]
      have hv := digitChar_val n hn
      omega
    · rw [if_neg h0, toDigitsCore_acc]
      unfold decodeDigits
      rw [List.foldl_append]
      have hx : n / 10 < f := by
        have h1 : n / 10 < n := Nat.div_lt_self (by omega) (by omega)
        omega
      have hdec := ih (n / 10) hx
      unfold decodeDigits at hdec
      rw [hdec]
      simp only [List.foldl]
      rw [digitChar_val _ (Nat.mod_lt _ (by omega))]
      exact Nat.div_add_mod n 10

/-- Decimal decoding inverts `Nat.repr`. -/
theorem decode_repr (n : Nat) : decodeDigits (Nat.repr n).data = n :=
  decode_toDigitsCore (n + 1) n (Nat.lt_succ_self n)

/-- The decimal rendering of a line number contains no dash. -/
theorem repr_no_dash (n : Nat) : '-' ∉ (Nat.repr n).data := by
  intro hmem
  have hdig : ∀ c ∈ Nat.toDigitsCore 10 (n + 1) n [], c.isDigit = true :=
    toDigitsCore_digits (n + 1) n [] (by simp)
  have h := hdig '-' hmem
  simp at h

/-- Two dash-joined strings with dash-free heads agree componentwise. -/
theorem append_dash_inj (l1 : List Char) :
    ∀ (l2 t1 t2 : List Char), '-' ∉ l1 → '-' ∉ l2 →
      l1 ++ '-' :: t1 = l2 ++ '-' :: t2 → l1 = l2 ∧ t1 = t2 := by
  induction l1 with
  | nil =>
    intro l2 t1 t2 h1 h2 he
    cases l2 with
    | nil => simpa using he
    | cons b bs =>
      simp only [List.nil_append, List.cons_append, List.cons.injEq] at he
      exact absurd (he.1 ▸ List.mem_cons_self '-' bs) h2
  | cons a as ih =>
    intro l2 t1 t2 h1 h2 he
    cases l2 with
    | nil =>
      simp only [List.nil_append, List.cons_append, List.cons.injEq] at he
      exact absurd (he.1 ▸ List.mem_cons_self '-' as) h1
    | cons b bs =>
      simp only [List.cons_append, List.cons.injEq] at he
      obtain ⟨hab, he2⟩ := he
      have h1' : '-' ∉ as := fun hm => h1 (List.mem_cons_of_mem _ hm)
      have h2' : '-' ∉ bs := fun hm => h2 (List.mem_cons_of_mem _ hm)
      obtain ⟨hl, ht⟩ := ih bs t1 t2 h1' h2' he2
      exact ⟨by rw [hab, hl], ht⟩

/-- The head of a substitution result is the head of the replacement or
the original head, so it avoids any character both of them avoid. -/
theorem replaceSubAux_head_ne (p : Char) (ps rep : List Char) (fuel : Nat)
    (l : List Char) (x : Char) (hne : rep ≠ []) (hrep : rep.head? ≠ some x)
    (hl : l.head? ≠ some x) :
    (replaceSubAux p ps rep fuel l).head? ≠ some x := by
  cases fuel with
  | zero => exact hl
  | succ f =>
    cases l with
    | nil => simp [replaceSubAux]
    | cons c cs =>
      rw [replaceSubAux]
      split
      · cases rep with
        | nil => exact absurd rfl hne
        | cons r0 rs => simpa using hrep
      · simpa using hl

/-- A complete row's key is determined by its normalized field tuple
alone, independently of the line number. -/
theorem variantKey_complete (n1 n2 : Nat) (r1 r2 : VRow)
    (h1 : "" ∉ variantInfo r1) (heq : variantInfo r1 = variantInfo r2) :
    variantKey n1 r1 = variantKey n2 r2 := by
  unfold variantKey
  rw [← heq]
  simp [h1]

/-- An incomplete row's key is the line-number-qualified join of its
non-empty fields. -/
theorem variantKey_incomplete (n : Nat) (r : VRow) (h : "" ∈ variantInfo r) :
    variantKey n r =
      toString n ++ "-" ++
        "-".intercalate ((variantInfo r).filter (fun s => s ≠ "")) := by
  unfold variantKey
  simp [h]

/-- Incomplete rows at distinct line numbers receive distinct keys. -/
theorem variantKey_incomplete_ne (n1 n2 : Nat) (r1 r2 : VRow)
    (h1 : "" ∈ variantInfo r1) (h2 : "" ∈ variantInfo r2) (hn : n1 ≠ n2) :
    variantKey n1 r1 ≠ variantKey n2 r2 := by
  rw [variantKey_incomplete n1 r1 h1, variantKey_incomplete n2 r2 h2]
  intro he
  have ht : ∀ m : Nat, toString m = Nat.repr m := fun _ => rfl
  rw [ht n1, ht n2] at he
  have hd := congrArg String.data he
  simp only [String.data_append] at hd
  rw [List.append_assoc, List.append_assoc, List.singleton_append,
    List.singleton_append] at hd
  have hsplit := append_dash_inj (Nat.repr n1).data (Nat.repr n2).data _ _
    (repr_no_dash n1) (repr_no_dash n2) hd
  apply hn
  calc n1 = decodeDigits (Nat.repr n1).data := (decode_repr n1).symm
    _ = decodeDigits (Nat.repr n2).data := by rw [hsplit.1]
    _ = n2 := decode_repr n2

/-- Lookup after a get-or-create update of an association list. -/
theorem lookup_updateAList {β : Type} (k k' : String) (f : β → β) (d : β) :
    ∀ l : List (String × β),
      (updateAList k f d l).lookup k' =
        if k' = k then
          some (match l.lookup k with
                | some v => f v
                | none => d)
        else l.lookup k' := by
  intro l
  induction l with
  | nil =>
    by_cases hk : k' = k
    · subst hk
      simp [updateAList, List.lookup]
    · have hb : (k' == k) = false := beq_eq_false_iff_ne.mpr hk
      simp [updateAList, List.lookup, hb, hk]
  | cons hd tl ih =>
    obtain ⟨k0, v0⟩ := hd
    by_cases h0 : k0 = k
    · subst h0
      by_cases hk : k' = k0
      · subst hk
        simp [updateAList, List.lookup]
      · have hb : (k' == k0) = false := beq_eq_false_iff_ne.mpr hk
        simp [updateAList, List.lookup, hb, hk]
    · have h0' : ¬ k = k0 := fun hh => h0 hh.symm
      have hb0 : (k == k0) = false := beq_eq_false_iff_ne.mpr h0'
      by_cases hk : k' = k0
      · subst hk
        simp [updateAList, h0, List.lookup]
      · have hb : (k' == k0) = false := beq_eq_false_iff_ne.mpr hk
        simp [updateAList, h0, List.lookup, hb, hb0, hk, ih]

/-- Adding one row touches exactly the map position of the row's patient
and key, appending the row's gene symbol there. -/
theorem geneView_addVariantRow (n : Nat) (r : VRow) (m : PatientMap) (p k : String) :
    geneView (addVariantRow n r m) p k =
      geneView m p k ++
        (if r.patient = p ∧ variantKey n r = k then [r.gene_symbol] else []) := by
  unfold geneView lookupVar addVariantRow
  by_cases hp : p = r.patient
  · subst hp
    cases hm : List.lookup r.patient m with
    | none =>
      by_cases hk : k = variantKey n r
      · subst hk
        simp [lookup_updateAList, hm, List.lookup, newEntry]
      · have hk' : ¬ (variantKey n r = k) := fun hh => hk hh.symm
        have hb : (k == variantKey n r) = false := beq_eq_false_iff_ne.mpr hk
        simp [lookup_updateAList, hm, List.lookup, hb, hk']
    | some pm =>
      by_cases hk : k = variantKey n r
      · subst hk
        cases hpm : List.lookup (variantKey n r) pm with
        | none => simp [lookup_updateAList, hm, hpm, newEntry]
        | some e => simp [lookup_updateAList, hm, hpm]
      · have hk' : ¬ (variantKey n r = k) := fun hh => hk hh.symm
        simp [lookup_updateAList, hm, hk, hk']
  · have hp' : ¬ (r.patient = p) := fun hh => hp hh.symm
    simp [lookup_updateAList, hp, hp']

/-- Unfolding of the contributing-genes view at a cons. -/
theorem contribGenes_cons (x : Nat × VRow) (l : List (Nat × VRow)) (p k : String) :
    contribGenes (x :: l) p k =
      (if x.2.patient = p ∧ variantKey x.1 x.2 = k then [x.2.gene_symbol] else []) ++
        contribGenes l p k := by
  unfold contribGenes
  rw [List.filter_cons]
  by_cases h : x.2.patient = p ∧ variantKey x.1 x.2 = k
  · simp [h]
  · simp [h]

/-- Folding the numbered rows appends exactly the contributing gene
symbols at every map position. -/
theorem geneView_foldl (l : List (Nat × VRow)) :
    ∀ (m : PatientMap) (p k : String),
      geneView (l.foldl (fun m' pr => addVariantRow pr.1 pr.2 m') m) p k =
        geneView m p k ++ contribGenes l p k := by
  induction l with
  | nil => intro m p k; simp [contribGenes]
  | cons x xs ih =>
    intro m p k
    rw [List.foldl_cons, ih, geneView_addVariantRow, contribGenes_cons,
      List.append_assoc]

/-! ### Claim theorems -/

/-- Claim C1: two rows whose five normalized fields are non-empty and
identical get the same variant key at any pair of line numbers, so key
synthesis is row-order independent; the entry stored under any patient
and key holds exactly the gene symbols of its contributing rows, so equal
rows union their genes of interest; a row with an empty normalized field
gets the line-number-qualified fallback key, and two such rows at
distinct lines never share a key, however their remaining fields match. -/
theorem variant_identity_invariant (rows : List VRow) (p k : String)
    (e : VariantEntry) (n1 n2 : Nat) (r1 r2 : VRow) :
    (("" ∉ variantInfo r1) → variantInfo r1 = variantInfo r2 →
        variantKey n1 r1 = variantKey n2 r2)
    ∧ (lookupVar (buildVariantMap rows) p k = some e →
        e.genes_of_interest = contribGenes rows.enum p k)
    ∧ ("" ∈ variantInfo r1 →
        variantKey n1 r1 =
          toString n1 ++ "-" ++
            "-".intercalate ((variantInfo r1).filter (fun s => s ≠ "")))
    ∧ ("" ∈ variantInfo r1 → "" ∈ variantInfo r2 → n1 ≠ n2 →
        variantKey n1 r1 ≠ variantKey n2 r2) := by
  refine ⟨variantKey_complete n1 n2 r1 r2, ?_, variantKey_incomplete n1 r1,
    variantKey_incomplete_ne n1 n2 r1 r2⟩
  intro h
  have hv := geneView_foldl rows.enum [] p k
  have hgv : geneView (buildVariantMap rows) p k = e.genes_of_interest := by
    unfold geneView
    rw [h]
    rfl
  rw [← hgv]
  unfold buildVariantMap
  rw [hv]
  rfl

/-- Witness for C1: a complete-field pair of equivalent rows shares its
key, the built map unions their gene symbols, and an incomplete row at
two distinct lines gets two distinct fallback keys. -/
theorem variant_identity_invariant_witness :
    variantKey 0 ⟨"P1", "7", "HG19", "100", "a", "g", "SNV", "SHH", ""⟩ =
      variantKey 5 ⟨"P2", "chr7", "hg19", "100", "A", "G", "indel", "BRCA1", "rs1"⟩
    ∧ (⟨"hg19", "chr7", "A", "G", "SNV", none, ["SHH", "BRCA1"]⟩ :
        VariantEntry).genes_of_interest =
        contribGenes
          ([⟨"P1", "7", "HG19", "100", "a", "g", "SNV", "SHH", ""⟩,
            ⟨"P1", "chr7", "hg19", "100", "A", "G", "SNV", "BRCA1", ""⟩] :
              List VRow).enum
          "P1" "chr7-hg19-100-A-G"
    ∧ variantKey 3 ⟨"P1", "7", "HG19", "100", "LEFT FLANK AGT", "g", "SNV", "SHH", ""⟩ =
        toString 3 ++ "-" ++
          "-".intercalate
            ((variantInfo ⟨"P1", "7", "HG19", "100", "LEFT FLANK AGT", "g", "SNV", "SHH", ""⟩).filter
              (fun s => s ≠ ""))
    ∧ variantKey 3 ⟨"P1", "7", "HG19", "100", "LEFT FLANK AGT", "g", "SNV", "SHH", ""⟩ ≠
        variantKey 4 ⟨"P1", "7", "HG19", "100", "LEFT FLANK AGT", "g", "SNV", "SHH", ""⟩ :=
  ⟨(variant_identity_invariant [] "" "" ⟨"", "", "", "", "", none, []⟩ 0 5
      ⟨"P1", "7", "HG19", "100", "a", "g", "SNV", "SHH", ""⟩
      ⟨"P2", "chr7", "hg19", "100", "A", "G", "indel", "BRCA1", "rs1"⟩).1
      (by decide) (by decide),
   (variant_identity_invariant
      [⟨"P1", "7", "HG19", "100", "a", "g", "SNV", "SHH", ""⟩,
       ⟨"P1", "chr7", "hg19", "100", "A", "G", "SNV", "BRCA1", ""⟩]
      "P1" "chr7-hg19-100-A-G" ⟨"hg19", "chr7", "A", "G", "SNV", none, ["SHH", "BRCA1"]⟩
      0 0 ⟨"", "", "", "", "", "", "", "", ""⟩ ⟨"", "", "", "", "", "", "", "", ""⟩).2.1
      (by decide),
   (variant_identity_invariant [] "" "" ⟨"", "", "", "", "", none, []⟩ 3 4
      ⟨"P1", "7", "HG19", "100", "LEFT FLANK AGT", "g", "SNV", "SHH", ""⟩
      ⟨"P1", "7", "HG19", "100", "LEFT FLANK AGT", "g", "SNV", "SHH", ""⟩).2.2.1
      (by decide),
   (variant_identity_invariant [] "" "" ⟨"", "", "", "", "", none, []⟩ 3 4
      ⟨"P1", "7", "HG19", "100", "LEFT FLANK AGT", "g", "SNV", "SHH", ""⟩
      ⟨"P1", "7", "HG19", "100", "LEFT FLANK AGT", "g", "SNV", "SHH", ""⟩).2.2.2
      (by decide) (by decide) (by decide)⟩

/-- Claim C2: GVC key construction is permutation-invariant: every
permutation of a list of allele identifiers yields exactly the same
genomic-variation-complement key. -/
theorem gvcKey_permutation_invariant (l1 l2 : List String) (h : l1.Perm l2) :
    gvcKey l1 = gvcKey l2 := by
  unfold gvcKey
  rw [pySorted_perm_eq h]

/-- Witness for C2 at the concrete pair from the specification. -/
theorem gvcKey_permutation_invariant_witness :
    gvcKey ["WBVar2", "WBVar1"] = gvcKey ["WBVar1", "WBVar2"] :=
  gvcKey_permutation_invariant ["WBVar2", "WBVar1"] ["WBVar1", "WBVar2"] (by decide)

/-- Claim C10: every patient-phenotype row asserts a has_phenotype triple
to the fixed disease term DOID:4 regardless of the presence flag, asserts
the row's own HPO term when the presence column is exactly the string
yes, and adds no further triple for any other presence value. -/
theorem patient_phenotype_row_triples (p h pres : String) :
    (⟨":" ++ p, "has_phenotype", "DOID:4"⟩ : Triple) ∈ parsePhenotypeRow p h pres
    ∧ (pres = "yes" →
        (⟨":" ++ p, "has_phenotype", h⟩ : Triple) ∈ parsePhenotypeRow p h pres)
    ∧ (pres ≠ "yes" →
        parsePhenotypeRow p h pres =
          [⟨":" ++ p, "rdf:type", "foaf:Person"⟩,
           ⟨":" ++ p, "has_phenotype", "DOID:4"⟩]) := by
  refine ⟨?_, ?_, ?_⟩
  · simp [parsePhenotypeRow]
  · intro hp
    simp [parsePhenotypeRow, hp]
  · intro hp
    simp [parsePhenotypeRow, hp]

/-- Witness for C10 at a yes row and a Yes row. -/
theorem patient_phenotype_row_triples_witness :
    (⟨":P1", "has_phenotype", "HP:0000012"⟩ : Triple) ∈
      parsePhenotypeRow "P1" "HP:0000012" "yes"
    ∧ parsePhenotypeRow "P1" "HP:0000012" "Yes" =
        [⟨":P1", "rdf:type", "foaf:Person"⟩, ⟨":P1", "has_phenotype", "DOID:4"⟩] :=
  ⟨(patient_phenotype_row_triples "P1" "HP:0000012" "yes").2.1 rfl,
   (patient_phenotype_row_triples "P1" "HP:0000012" "Yes").2.2 (by decide)⟩

/-- Claim C9: the reference column moves into the with/from role exactly
when it matches the variant/reagent pattern, the with/from column moves
into the reference role exactly when it matches the person pattern, and
a column without a match keeps its original assignment. -/
theorem ref_withfrom_disambiguation (ref wf : String) :
    ((strSearch "WBVar" ref || strSearch "WBRNAi" ref) = true →
        (disambiguate ref wf).2 = ref)
    ∧ ((strSearch "WBVar" ref || strSearch "WBRNAi" ref) = false →
        (disambiguate ref wf).2 = wf)
    ∧ (strMatch "WBPerson" wf = true → (disambiguate ref wf).1 = wf)
    ∧ (strMatch "WBPerson" wf = false → (disambiguate ref wf).1 = ref) := by
  unfold disambiguate
  refine ⟨?_, ?_, ?_, ?_⟩ <;> intro h <;> simp [h]

/-- Witness for C9 at one row with both patterns matching and one row
with neither matching. -/
theorem ref_withfrom_disambiguation_witness :
    (disambiguate "WB:WBVar00095133" "WBPerson123").2 = "WB:WBVar00095133"
    ∧ (disambiguate "WB:WBVar00095133" "WBPerson123").1 = "WBPerson123"
    ∧ (disambiguate "PMID:1" "WB:WBX").2 = "WB:WBX"
    ∧ (disambiguate "PMID:1" "WB:WBX").1 = "PMID:1" :=
  ⟨(ref_withfrom_disambiguation "WB:WBVar00095133" "WBPerson123").1 (by decide),
   (ref_withfrom_disambiguation "WB:WBVar00095133" "WBPerson123").2.2.1 (by decide),
   (ref_withfrom_disambiguation "PMID:1" "WB:WBX").2.1 (by decide),
   (ref_withfrom_disambiguation "PMID:1" "WB:WBX").2.2.2 (by decide)⟩

/-- Claim C4: a row whose negation column is NOT produces no association
in either association processor, and processing of the remaining rows is
unaffected. -/
theorem negated_rows_produce_nothing (r : ARow) (rows drows : List ARow)
    (st : Option (Option String)) (h : r.is_not = "NOT") :
    processAllelePhenotypeRow r = ([], [])
    ∧ processAllelePhenotypeFile (r :: rows) = processAllelePhenotypeFile rows
    ∧ processDiseaseAux st (r :: drows) = processDiseaseAux st drows := by
  refine ⟨?_, ?_, ?_⟩
  · simp [processAllelePhenotypeRow, h]
  · simp [processAllelePhenotypeFile, processAllelePhenotypeRow, h]
  · simp [processDiseaseAux, h]

/-- Witness for C4 at a concrete NOT row. -/
theorem negated_rows_produce_nothing_witness :
    processAllelePhenotypeRow ⟨"WBGene1", "NOT", "WBPheno:1", "WBPaper:1", "IMP", "WB:WBVar1"⟩ =
      ([], [])
    ∧ processAllelePhenotypeFile
        [⟨"WBGene1", "NOT", "WBPheno:1", "WBPaper:1", "IMP", "WB:WBVar1"⟩] =
        processAllelePhenotypeFile []
    ∧ processDiseaseAux none
        [⟨"WBGene1", "NOT", "WBPheno:1", "WBPaper:1", "IMP", "WB:WBVar1"⟩] =
        processDiseaseAux none [] :=
  negated_rows_produce_nothing
    ⟨"WBGene1", "NOT", "WBPheno:1", "WBPaper:1", "IMP", "WB:WBVar1"⟩ [] [] none rfl

/-- Claim C3: identity synthesis is deterministic: two pipeline runs over
equal inputs produce the same synthesized variant keys, genotype keys,
associations with their GVC and reagent-targeted-gene subjects, and
association count; every key synthesis in the model is a pure function
of the input rows. -/
theorem pipeline_deterministic (v1 v2 : List VRow) (a1 a2 d1 d2 : List ARow)
    (hv : v1 = v2) (ha : a1 = a2) (hd : d1 = d2) :
    runPipeline v1 a1 d1 = runPipeline v2 a2 d2 := by
  rw [hv, ha, hd]

/-- Witness for C3 at a concrete input processed in two runs. -/
theorem pipeline_deterministic_witness :
    runPipeline [⟨"P1", "7", "HG19", "100", "a", "g", "SNV", "SHH", ""⟩]
      [⟨"WBGene1", "", "WBPheno:1", "WBPaper:1", "IMP", "WB:WBVar1|WB:WBVar2"⟩] [] =
    runPipeline [⟨"P1", "7", "HG19", "100", "a", "g", "SNV", "SHH", ""⟩]
      [⟨"WBGene1", "", "WBPheno:1", "WBPaper:1", "IMP", "WB:WBVar1|WB:WBVar2"⟩] [] :=
  pipeline_deterministic _ _ _ _ _ _ rfl rfl rfl

/-- Claim C5: a row whose disambiguated with/from column splits into two
or more pipe-delimited identifiers emits exactly one association, whose
subject is the GVC key of the lexicographically sorted identifier list;
no per-identifier association is emitted. -/
theorem multi_allele_single_gvc_assoc (r : ARow)
    (hnot : r.is_not ≠ "NOT")
    (hlen : 2 ≤ (pySplitPipe (disambiguate r.ref r.with_or_from).2).length) :
    (processAllelePhenotypeRow r).1 =
      [{ subject := gvcKey (pySorted (pySplitPipe (disambiguate r.ref r.with_or_from).2)),
         obj := r.phenotype_id, evidence := ecoOf r,
         sources := sourcesOf (disambiguate r.ref r.with_or_from).1 }] := by
  have h0 : ¬ ((pySplitPipe (disambiguate r.ref r.with_or_from).2).length = 0) := by omega
  have h1 : ¬ ((pySplitPipe (disambiguate r.ref r.with_or_from).2).length = 1) := by omega
  rw [gvcKey_pySorted]
  simp only [processAllelePhenotypeRow, if_neg hnot, if_neg h0, if_neg h1]

/-- Witness for C5 at the concrete two-variant row from the
specification. -/
theorem multi_allele_single_gvc_assoc_witness :
    (processAllelePhenotypeRow
      ⟨"WBGene1", "", "WBPheno:1", "WBPaper:1", "IMP", "WB:WBVar2|WB:WBVar1"⟩).1 =
      [{ subject := ":_WBVar1-WBVar2", obj := "WBPheno:1",
         evidence := some "ECO:0000015", sources := ["WBPaper:1"] }] := by
  rw [multi_allele_single_gvc_assoc
    ⟨"WBGene1", "", "WBPheno:1", "WBPaper:1", "IMP", "WB:WBVar2|WB:WBVar1"⟩
    (by decide) (by decide)]
  decide

/-- Claim C6: a row whose disambiguated with/from column holds exactly
one identifier matching the RNAi reagent pattern emits an association
whose subject is the synthesized reagent-targeted-gene identifier built
from the row's gene and the reagent, not the raw reagent identifier. -/
theorem single_rnai_targets_rtg (r : ARow) (a : String)
    (hnot : r.is_not ≠ "NOT")
    (hsplit : pySplitPipe (disambiguate r.ref r.with_or_from).2 = [a])
    (hrnai : strSearch "WBRNAi" (pySub "WB:" "WormBase:" a) = true) :
    (processAllelePhenotypeRow r).1 =
      [{ subject := rtgKey r.gene_num (pySub "WormBase:" "" (pySub "WB:" "WormBase:" a)),
         obj := r.phenotype_id, evidence := ecoOf r,
         sources := sourcesOf (disambiguate r.ref r.with_or_from).1 }]
    ∧ (a.data.head? ≠ some ':' →
        rtgKey r.gene_num (pySub "WormBase:" "" (pySub "WB:" "WormBase:" a)) ≠
          pySub "WB:" "WormBase:" a) := by
  constructor
  · simp only [processAllelePhenotypeRow, if_neg hnot, hsplit]
    simp [hrnai]
  · intro hhead heq
    have hdata := congrArg String.data heq
    have hhd : (rtgKey r.gene_num (pySub "WormBase:" "" (pySub "WB:" "WormBase:" a))).data.head? =
        some ':' := rfl
    rw [hdata] at hhd
    revert hhd
    show (pySub "WB:" "WormBase:" a).data.head? = some ':' → False
    unfold pySub
    intro hbad
    exact replaceSubAux_head_ne 'W' ['B', ':'] "WormBase:".data a.data.length a.data ':'
      (by decide) (by decide) hhead hbad

/-- Witness for C6 at a concrete single-reagent row. -/
theorem single_rnai_targets_rtg_witness :
    (processAllelePhenotypeRow
      ⟨"WBGene1", "", "WBPheno:1", "WBPaper:1", "XYZ", "WB:WBRNAi00001"⟩).1 =
      [{ subject := ":_WBGene1-WBRNAi00001", obj := "WBPheno:1",
         evidence := none, sources := ["WBPaper:1"] }]
    ∧ (":_WBGene1-WBRNAi00001" : String) ≠ "WormBase:WBRNAi00001" := by
  have h := single_rnai_targets_rtg
    ⟨"WBGene1", "", "WBPheno:1", "WBPaper:1", "XYZ", "WB:WBRNAi00001"⟩
    "WB:WBRNAi00001" (by decide) (by decide) (by decide)
  constructor
  · rw [h.1]
    decide
  · have h2 := h.2 (by decide)
    intro he
    apply h2
    rw [show rtgKey "WBGene1" (pySub "WormBase:" ""
          (pySub "WB:" "WormBase:" "WB:WBRNAi00001")) = ":_WBGene1-WBRNAi00001" from by decide,
        show pySub "WB:" "WormBase:" "WB:WBRNAi00001" = "WormBase:WBRNAi00001" from by decide]
    exact he

/-- Counterexample for C7 as stated: the input GL000192.1 contains a GL
accession fragment yet its normalized form is not the empty string. -/
theorem chromosome_gl_not_rejected :
    strSearch "GL" "GL000192.1" = true ∧ formatChr "GL000192.1" ≠ "" := by
  decide

/-- Claim C7 (amended): X normalizes to chrX and CHR3 to chr3; a value
whose prefix-canonicalized form contains the fragment chrGL normalizes to
the empty string, while a bare GL accession without the chr prefix is
left unchanged. -/
theorem chromosome_normalization_amended :
    formatChr "X" = "chrX"
    ∧ formatChr "CHR3" = "chr3"
    ∧ (∀ c : String, strSearch "chrGL" (formatChrPre c) = true → formatChr c = "")
    ∧ formatChr "GL000192.1" = "GL000192.1" := by
  refine ⟨by decide, by decide, ?_, by decide⟩
  intro c h
  unfold formatChr
  simp [h]

/-- Witness for C7 at a chr-prefixed GL contig value. -/
theorem chromosome_normalization_amended_witness :
    formatChr "chrGL000192.1" = "" ∧ formatChr "X" = "chrX" :=
  ⟨chromosome_normalization_amended.2.2.1 "chrGL000192.1" (by decide),
   chromosome_normalization_amended.1⟩

/-- Claim C8 (code bug): the allele-phenotype processor does degrade
gracefully on an unrecognized evidence symbol (warning, association kept
with no evidence code), but the disease-association processor reads the
local eco_id before any assignment whenever the first non-negated row
carries an evidence symbol other than IEA, raising NameError and
terminating the run. -/
theorem disease_eco_unbound_aborts :
    processAllelePhenotypeRow
      ⟨"WBGene1", "", "WBPheno:1", "WB_REF:WBPaper00035", "XYZ", "WB:WBVar1"⟩ =
      ([{ subject := "WormBase:WBVar1", obj := "WBPheno:1", evidence := none,
          sources := ["WormBase:WBPaper00035"] }],
       ["Encountered an ECO code we do not have: XYZ"])
    ∧ processDiseaseFile
        [⟨"WBGene00000001", "", "DOID:2583", "PMID:19029536", "IMP", ""⟩] =
        .error "NameError: name eco_id is not defined at gene WBGene00000001" :=
  ⟨by decide, by rfl⟩

end Dipper
